import Mathlib

/-!
Shallow embedding of the capture-session and clipboard code of wayvnc
(src/ext-screencopy.c and src/data-control.c).

Modelling conventions:
- Each C function becomes a Lean function of the same name. Stateful code is
  explicit state passing over the `ExtScreencopy` / `DataControl` structures,
  together with a trace of the outgoing calls (protocol requests, pool
  operations, the completion callback, logging) as a `List PCall` / `List DCall`.
- Calls into external libraries that can fail (calloc, pool creation, surface
  creation, data-source creation, write) take an explicit success oracle or
  result argument.
- C behaviour that is undefined in the source (a failed assert, dereferencing
  a null buffer or pool) is modelled by returning `none`.
- Protocol requests all target `self->surface`; the surface pointer is carried
  in the state, and surface identity shows up in the trace only for
  creation/destruction, which is what the claims inspect.
- The wv_buffer primitives live in buffer.c, which is not among the sources;
  they are modelled from the spec and marked as such.
-/

/-- An axis-aligned damage rectangle, as passed over the protocol
(x, y, width, height). Coordinates are modelled as Nat. -/
structure WvRect where
  x : Nat
  y : Nat
  w : Nat
  h : Nat
deriving DecidableEq

/-- A damage region: a set of rectangles under union semantics. -/
abbrev WvRegion := List WvRect

/-- Region union; pixman_region_union is modelled as list append, since per the
spec union is the only combination operator and duplicates and overlaps are
harmless. -/
def WvRegion.union (a b : WvRegion) : WvRegion := a ++ b

/-- wv_buffer domains (WV_BUFFER_DOMAIN_*). -/
inductive WvBufferDomain
  | unspec
  | output
  | cursor
deriving DecidableEq

/-- wv_buffer memory kinds (WV_BUFFER_UNSPEC / WV_BUFFER_SHM / WV_BUFFER_DMABUF). -/
inductive WvBufferType
  | unspec
  | shm
  | dmabuf
deriving DecidableEq

/-- A pooled buffer. `buffer_damage` is the buffer's own pending (staleness)
damage relative to the last composited output; `frame_damage` is the damage
accumulated for the frame currently being captured into it. -/
structure WvBuffer where
  id : Nat
  domain : WvBufferDomain
  buffer_damage : WvRegion
  frame_damage : WvRegion
deriving DecidableEq

/-- A buffer pool: a free list of reusable buffers plus a counter for fresh
buffer identities. -/
structure WvBufferPool where
  free : List WvBuffer
  next_id : Nat
deriving DecidableEq

/-- Modelled from the spec: `wv_buffer_pool_acquire` is in buffer.c, which is
not among the sources. Acquire returns a reusable or freshly allocated buffer;
the acquired buffer carries its staleness as its own pending damage, and that
staleness must be unioned with protocol-reported damage into the damage
delivered with the frame, so the acquired buffer's frame damage starts from
its staleness. -/
def wv_buffer_pool_acquire (p : WvBufferPool) : WvBuffer × WvBufferPool :=
  match p.free with
  | [] =>
    ({ id := p.next_id, domain := .unspec, buffer_damage := [], frame_damage := [] },
      { p with next_id := p.next_id + 1 })
  | b :: rest => ({ b with frame_damage := b.buffer_damage }, { p with free := rest })

/-- Modelled from the spec: `wv_buffer_pool_release` (buffer.c) returns a
buffer to its pool for reuse and invalidates the session's reference to it. -/
def wv_buffer_pool_release (p : WvBufferPool) (b : WvBuffer) : WvBufferPool :=
  { p with free := p.free ++ [b] }

/-- Modelled from the spec: `wv_buffer_damage_rect` (buffer.c) unions a
protocol-reported rectangle into the damage accumulated for the buffer's
current frame. -/
def wv_buffer_damage_rect (b : WvBuffer) (x y w h : Nat) : WvBuffer :=
  { b with frame_damage := WvRegion.union b.frame_damage [⟨x, y, w, h⟩] }

/-- Modelled from the spec: `wv_buffer_registry_damage_all` (buffer.c) merges a
region into the cross-buffer damage registry of a domain, so other pooled
buffers of that domain know the region changed since their last use. The
registry is modelled as the accumulated region per domain. -/
def wv_buffer_registry_damage_all (registry : WvRegion) (r : WvRegion) : WvRegion :=
  WvRegion.union registry r

/-- Negotiated buffer parameters of one domain (the anonymous `output` /
`cursor` struct inside `struct ext_screencopy`). -/
structure DomainInfo where
  wl_shm_width : Nat
  wl_shm_height : Nat
  wl_shm_stride : Nat
  wl_shm_format : Nat
  have_linux_dmabuf : Bool
  dmabuf_width : Nat
  dmabuf_height : Nat
  dmabuf_format : Nat
deriving DecidableEq

/-- Commit option flags (ZEXT_SCREENCOPY_SURFACE_V1_OPTIONS_*), modelled as the
two option bits the source can set on top of OPTIONS_NONE. -/
structure CommitFlags where
  immediate : Bool
  render_cursors : Bool
deriving DecidableEq

/-- Completion statuses passed to the `on_done` callback. -/
inductive ScreencopyStatus
  | done
  | failed
deriving DecidableEq

/-- Protocol failure reasons (zext_screencopy_surface_v1_failure_reason),
abstracted to the value the source distinguishes plus two other reasons. -/
inductive FailureReason
  | unknown
  | invalid_buffer
  | invalid_options
deriving DecidableEq

/-- Buffer types announced in buffer_info events. -/
inductive BufferInfoType
  | wl_shm
  | dmabuf
deriving DecidableEq

/-- The outgoing calls made by ext-screencopy.c: protocol requests on the
surface, pool operations, surface lifecycle, and the completion callback. -/
inductive PCall
  | surface_destroy (h : Nat)
  | surface_create (h : Nat)
  | attach_buffer (buf : Nat)
  | damage_buffer (x y w h : Nat)
  | damage_cursor_buffer
  | attach_cursor_buffer (buf : Nat)
  | commit (flags : CommitFlags)
  | pool_resize (dom : WvBufferDomain) (ty : WvBufferType) (w h stride format : Nat)
  | pool_release (dom : WvBufferDomain) (buf : Nat)
  | pool_create (dom : WvBufferDomain)
  | pool_destroy (dom : WvBufferDomain)
  | on_done (status : ScreencopyStatus) (buf : Option WvBuffer)
  | free_session
deriving DecidableEq

/-- `struct ext_screencopy`. The opaque manager/wl_output/on_done/userdata
pointers are not modelled; the pools are optional because the pointers can be
NULL (create's failure paths). `next_surface` supplies fresh surface handle
identities; `registry_output`/`registry_cursor` hold the cross-buffer damage
registry of each domain (buffer.c state, modelled from the spec). -/
structure ExtScreencopy where
  surface : Option Nat
  next_surface : Nat
  render_cursors : Bool
  pool : Option WvBufferPool
  buffer : Option WvBuffer
  cursor_pool : Option WvBufferPool
  cursor_buffer : Option WvBuffer
  have_buffer_info : Bool
  should_start : Bool
  shall_be_immediate : Bool
  have_cursor : Bool
  output : DomainInfo
  cursor : DomainInfo
  registry_output : WvRegion
  registry_cursor : WvRegion
  rate_limit : Nat
deriving DecidableEq

/-- ext_screencopy_init_surface: destroy the current surface handle if any,
then create a fresh one and add the listener. `create_ok` is the success
oracle for zext_screencopy_manager_v1_capture_output. Returns the new state,
the emitted calls and the C return value (0 or -1). -/
def ext_screencopy_init_surface (self : ExtScreencopy) (create_ok : Bool) :
    ExtScreencopy × List PCall × Int :=
  let tr : List PCall :=
    match self.surface with
    | some h => [PCall.surface_destroy h]
    | none => []
  if create_ok then
    let h := self.next_surface
    ({ self with surface := some h, next_surface := h + 1 },
      tr ++ [PCall.surface_create h], 0)
  else
    ({ self with surface := none }, tr, -1)

/-- ext_screencopy_schedule_capture: acquire an output buffer, tag it OUTPUT,
attach it, submit one damage hint per rectangle of its own pending damage,
compute the commit flags, optionally acquire and attach a cursor buffer, and
commit. `none` models the null-pointer dereference of a missing pool. -/
def ext_screencopy_schedule_capture (self : ExtScreencopy) (immediate : Bool) :
    Option (ExtScreencopy × List PCall) :=
  match self.pool with
  | none => none
  | some p =>
    let bp := wv_buffer_pool_acquire p
    let b : WvBuffer := { bp.1 with domain := .output }
    let self := { self with pool := some bp.2, buffer := some b }
    let tr := [PCall.attach_buffer b.id] ++
      b.buffer_damage.map (fun r => PCall.damage_buffer r.x r.y r.w r.h)
    let flags : CommitFlags :=
      { immediate := immediate, render_cursors := self.render_cursors }
    if self.have_cursor then
      match self.cursor_pool with
      | none => none
      | some cp =>
        let cbp := wv_buffer_pool_acquire cp
        let cb : WvBuffer := { cbp.1 with domain := .cursor }
        let self := { self with cursor_pool := some cbp.2, cursor_buffer := some cb }
        let tr := tr ++
          (if cb.buffer_damage ≠ [] then [PCall.damage_cursor_buffer] else []) ++
          [PCall.attach_cursor_buffer cb.id]
        some (self, tr ++ [PCall.commit flags])
    else
      some (self, tr ++ [PCall.commit flags])

/-- surface_handle_reconfig: invalidate the negotiation state and the output
domain's dmabuf descriptor. -/
def surface_handle_reconfig (self : ExtScreencopy) : ExtScreencopy :=
  { self with
    have_buffer_info := false,
    output := { self.output with have_linux_dmabuf := false } }

/-- surface_handle_buffer_info: record the announced output-domain buffer
parameters by type. -/
def surface_handle_buffer_info (self : ExtScreencopy) (t : BufferInfoType)
    (format width height stride : Nat) : ExtScreencopy :=
  match t with
  | .wl_shm =>
    { self with output := { self.output with
        wl_shm_format := format, wl_shm_width := width,
        wl_shm_height := height, wl_shm_stride := stride } }
  | .dmabuf =>
    { self with output := { self.output with
        dmabuf_format := format, dmabuf_width := width, dmabuf_height := height } }

/-- surface_handle_cursor_buffer_info: record the announced cursor-domain
buffer parameters by type. -/
def surface_handle_cursor_buffer_info (self : ExtScreencopy) (t : BufferInfoType)
    (format width height stride : Nat) : ExtScreencopy :=
  match t with
  | .wl_shm =>
    { self with cursor := { self.cursor with
        wl_shm_format := format, wl_shm_width := width,
        wl_shm_height := height, wl_shm_stride := stride } }
  | .dmabuf =>
    { self with cursor := { self.cursor with
        dmabuf_format := format, dmabuf_width := width, dmabuf_height := height } }

/-- surface_handle_init_done: resize both pools with the finalized parameters
(dmabuf if announced, wl_shm otherwise), schedule the deferred capture if one
is pending and clear the pending flags, then mark negotiation complete. -/
def surface_handle_init_done (self : ExtScreencopy) :
    Option (ExtScreencopy × List PCall) :=
  let oty := if self.output.have_linux_dmabuf then WvBufferType.dmabuf else WvBufferType.shm
  let ow := if self.output.have_linux_dmabuf then self.output.dmabuf_width else self.output.wl_shm_width
  let oh := if self.output.have_linux_dmabuf then self.output.dmabuf_height else self.output.wl_shm_height
  let ost := if self.output.have_linux_dmabuf then 0 else self.output.wl_shm_stride
  let of_ := if self.output.have_linux_dmabuf then self.output.dmabuf_format else self.output.wl_shm_format
  let cty := if self.cursor.have_linux_dmabuf then WvBufferType.dmabuf else WvBufferType.shm
  let cw := if self.cursor.have_linux_dmabuf then self.cursor.dmabuf_width else self.cursor.wl_shm_width
  let ch := if self.cursor.have_linux_dmabuf then self.cursor.dmabuf_height else self.cursor.wl_shm_height
  let cst := if self.cursor.have_linux_dmabuf then 0 else self.cursor.wl_shm_stride
  let cf := if self.cursor.have_linux_dmabuf then self.cursor.dmabuf_format else self.cursor.wl_shm_format
  let tr := [PCall.pool_resize .output oty ow oh ost of_,
    PCall.pool_resize .cursor cty cw ch cst cf]
  if self.should_start then
    match ext_screencopy_schedule_capture self self.shall_be_immediate with
    | none => none
    | some r =>
      some ({ r.1 with
        should_start := false, shall_be_immediate := false, have_buffer_info := true },
        tr ++ r.2)
  else
    some ({ self with have_buffer_info := true }, tr)

/-- surface_handle_ready: merge the in-flight buffer's frame damage into the
OUTPUT-domain registry, clear the buffer's own pending damage, detach it from
the session and deliver it with status DONE. `none` models the failed
assert when no buffer is outstanding. -/
def surface_handle_ready (self : ExtScreencopy) :
    Option (ExtScreencopy × List PCall) :=
  match self.buffer with
  | none => none
  | some b =>
    let reg := wv_buffer_registry_damage_all self.registry_output b.frame_damage
    let b := { b with buffer_damage := [] }
    some ({ self with registry_output := reg, buffer := none },
      [PCall.on_done .done (some b)])

/-- surface_handle_failed: return the in-flight buffer to its pool, recreate
the surface when the reason is INVALID_BUFFER, and report FAILED with no
buffer. `create_ok` is the surface-recreation oracle; `none` models the
failed assert (or a null pool). -/
def surface_handle_failed (self : ExtScreencopy) (reason : FailureReason)
    (create_ok : Bool) : Option (ExtScreencopy × List PCall) :=
  match self.buffer with
  | none => none
  | some b =>
    match self.pool with
    | none => none
    | some p =>
      let self := { self with pool := some (wv_buffer_pool_release p b), buffer := none }
      let tr := [PCall.pool_release .output b.id]
      let r :=
        if reason = .invalid_buffer then
          let ri := ext_screencopy_init_surface self create_ok
          (ri.1, ri.2.1)
        else (self, [])
      some (r.1, tr ++ r.2 ++ [PCall.on_done .failed none])

/-- surface_handle_damage: union the reported rectangle into the in-flight
buffer's damage. The source dereferences `self->buffer` without a check;
`none` models the null dereference. -/
def surface_handle_damage (self : ExtScreencopy) (x y w h : Nat) :
    Option ExtScreencopy :=
  match self.buffer with
  | none => none
  | some b => some { self with buffer := some (wv_buffer_damage_rect b x y w h) }

/-- surface_handle_cursor_enter: the cursor is now present. -/
def surface_handle_cursor_enter (self : ExtScreencopy) : ExtScreencopy :=
  { self with have_cursor := true }

/-- surface_handle_cursor_leave: the cursor is no longer present. -/
def surface_handle_cursor_leave (self : ExtScreencopy) : ExtScreencopy :=
  { self with have_cursor := false }

/-- ext_screencopy_start: before negotiation completes, record the request in
the pending flags; after, schedule a capture synchronously. Returns the
state, the emitted calls and the C return value (always 0). -/
def ext_screencopy_start (self : ExtScreencopy) (immediate : Bool) :
    Option (ExtScreencopy × List PCall × Int) :=
  if !self.have_buffer_info then
    some ({ self with should_start := true, shall_be_immediate := immediate }, [], 0)
  else
    match ext_screencopy_schedule_capture self immediate with
    | none => none
    | some r => some (r.1, r.2, 0)

/-- The zero-initialized session produced by `calloc` in ext_screencopy_create
(the opaque pointer fields are not modelled). -/
def calloc_session : ExtScreencopy :=
  { surface := none, next_surface := 0, render_cursors := false,
    pool := none, buffer := none, cursor_pool := none, cursor_buffer := none,
    have_buffer_info := false, should_start := false, shall_be_immediate := false,
    have_cursor := false,
    output := ⟨0, 0, 0, 0, false, 0, 0, 0⟩, cursor := ⟨0, 0, 0, 0, false, 0, 0, 0⟩,
    registry_output := [], registry_cursor := [], rate_limit := 0 }

/-- ext_screencopy_create, with one success oracle per fallible allocation
(calloc, output pool, cursor pool, surface). This mirrors the source exactly,
including the goto-label cleanup chain and the fact that after creating the
cursor pool the source tests `!self->pool` (the output pool) again rather than
`!self->cursor_pool`. The `render_cursor` argument is accepted and, as in the
source, never stored. -/
def ext_screencopy_create (render_cursor : Bool)
    (calloc_ok pool_ok cursor_pool_ok surface_ok : Bool) :
    Option ExtScreencopy × List PCall :=
  if !calloc_ok then (none, [])
  else
    let self := { calloc_session with rate_limit := 30 }
    if !pool_ok then (none, [PCall.free_session])
    else
      let self := { self with pool := some { free := [], next_id := 0 } }
      let tr := [PCall.pool_create WvBufferDomain.output]
      let self := { self with
        cursor_pool := if cursor_pool_ok then some { free := [], next_id := 0 } else none }
      let tr := tr ++ (if cursor_pool_ok then [PCall.pool_create WvBufferDomain.cursor] else [])
      if self.pool = none then
        (none, tr ++ [PCall.pool_destroy WvBufferDomain.output, PCall.free_session])
      else
        let r := ext_screencopy_init_surface self surface_ok
        if r.2.2 < 0 then
          (none, tr ++ r.2.1 ++ [PCall.pool_destroy WvBufferDomain.cursor,
            PCall.pool_destroy WvBufferDomain.output, PCall.free_session])
        else
          (some r.1, tr ++ r.2.1)

/-- ext_screencopy_destroy: destroy the surface handle if present, release the
in-flight output buffer if present, free the session. Returns the emitted
calls (the state is freed). -/
def ext_screencopy_destroy (self : ExtScreencopy) : List PCall :=
  (match self.surface with
    | some h => [PCall.surface_destroy h]
    | none => []) ++
  (match self.buffer with
    | some b => [PCall.pool_release .output b.id]
    | none => []) ++
  [PCall.free_session]

/-- The operations that can hit a session: the caller's `start` and the
protocol events the listener dispatches (transform, cursor_info and
commit_time are not needed by any claim and are omitted). -/
inductive SCAction
  | start (immediate : Bool)
  | reconfig
  | buffer_info (t : BufferInfoType) (format width height stride : Nat)
  | cursor_buffer_info (t : BufferInfoType) (format width height stride : Nat)
  | init_done
  | damage (x y w h : Nat)
  | cursor_enter
  | cursor_leave
  | ready
  | failed (reason : FailureReason) (create_ok : Bool)
deriving DecidableEq

/-- Dispatch one operation, as the listener table does. -/
def sc_step (s : ExtScreencopy) : SCAction → Option (ExtScreencopy × List PCall)
  | .start imm => (ext_screencopy_start s imm).map (fun r => (r.1, r.2.1))
  | .reconfig => some (surface_handle_reconfig s, [])
  | .buffer_info t f w h st => some (surface_handle_buffer_info s t f w h st, [])
  | .cursor_buffer_info t f w h st =>
    some (surface_handle_cursor_buffer_info s t f w h st, [])
  | .init_done => surface_handle_init_done s
  | .damage x y w h => (surface_handle_damage s x y w h).map (fun s' => (s', []))
  | .cursor_enter => some (surface_handle_cursor_enter s, [])
  | .cursor_leave => some (surface_handle_cursor_leave s, [])
  | .ready => surface_handle_ready s
  | .failed r ok => surface_handle_failed s r ok

/-- Run a sequence of operations, concatenating the emitted calls. -/
def sc_run (s : ExtScreencopy) : List SCAction → Option (ExtScreencopy × List PCall)
  | [] => some (s, [])
  | a :: rest =>
    match sc_step s a with
    | none => none
    | some r =>
      match sc_run r.1 rest with
      | none => none
      | some r2 => some (r2.1, r.2 ++ r2.2)

/-- Is this call a commit? -/
def isCommit : PCall → Bool
  | .commit _ => true
  | _ => false

/-- Number of commit calls in a trace. -/
def commitCount (tr : List PCall) : Nat := (tr.filter isCommit).length

/-- The flags of a commit call, none for any other call. -/
def toCommitFlag : PCall → Option CommitFlags
  | .commit f => some f
  | _ => none

/-- The flags of the commit calls in a trace, in order. -/
def commitFlagsList (tr : List PCall) : List CommitFlags :=
  tr.filterMap toCommitFlag

/-- Is this call a cursor-buffer attach? -/
def isCursorAttach : PCall → Bool
  | .attach_cursor_buffer _ => true
  | _ => false

/-- Is this call an on_done callback invocation? -/
def isOnDone : PCall → Bool
  | .on_done _ _ => true
  | _ => false

/-! The clipboard side: data-control.c. Only the state and calls the claims
touch are modelled: the stored clipboard bytes and length, the two selection
source handles, and the manager pointer's nullness. Source handles get fresh
identities from `next_source`. -/

/-- `struct data_control` (the wl_display/server/device/offer pointers and the
mime type string are opaque and not modelled). -/
structure DataControl where
  manager : Bool
  cb_data : Option (List Nat)
  cb_len : Nat
  selection : Option Nat
  primary_selection : Option Nat
  next_source : Nat
deriving DecidableEq

/-- The outgoing calls made by data-control.c that the claims inspect. -/
inductive DCall
  | write_fd (fd : Nat) (len : Nat)
  | close_fd (fd : Nat)
  | log_error
  | create_data_source (id : Nat)
  | source_offer (id : Nat)
  | set_selection_dev (id : Nat)
  | set_primary_selection_dev (id : Nat)
deriving DecidableEq

/-- set_selection: create a data source, offer the mime type and set it as the
regular or primary selection. `create_ok` is the success oracle for
zwlr_data_control_manager_v1_create_data_source; on failure the source logs,
frees the clipboard data and returns NULL. Returns the new source handle (or
none), the updated state and the emitted calls. -/
def set_selection (self : DataControl) (primary : Bool) (create_ok : Bool) :
    Option Nat × DataControl × List DCall :=
  if !self.manager then (none, self, [])
  else if !create_ok then
    (none, { self with cb_data := none }, [DCall.log_error])
  else
    let sel := self.next_source
    let self := { self with next_source := self.next_source + 1 }
    (some sel, self,
      [DCall.create_data_source sel, DCall.source_offer sel,
        if primary then DCall.set_primary_selection_dev sel else DCall.set_selection_dev sel])

/-- data_control_to_clipboard: reject a zero length, otherwise free the old
clipboard data, copy the new text in and install it as both the regular and
the primary selection. `malloc_ok` is the oracle for the malloc of the copy;
the other two are the oracles of the two set_selection calls. -/
def data_control_to_clipboard (self : DataControl) (text : List Nat) (len : Nat)
    (malloc_ok create_sel_ok create_primary_ok : Bool) :
    DataControl × List DCall :=
  if len = 0 then (self, [DCall.log_error])
  else
    let self := { self with cb_data := none }
    if !malloc_ok then (self, [DCall.log_error])
    else
      let self := { self with cb_data := some (text.take len), cb_len := len }
      let r1 := set_selection self false create_sel_ok
      let self := { r1.2.1 with selection := r1.1 }
      let r2 := set_selection self true create_primary_ok
      let self := { r2.2.1 with primary_selection := r2.1 }
      (self, r1.2.2 ++ r2.2.2)

/-- data_control_source_send: write the stored clipboard bytes to the supplied
descriptor, log when the write transferred fewer bytes than stored, and close
the descriptor. `write_ret` is the result of the write call; `none` models
the failed `assert(d)` when no clipboard data is stored. -/
def data_control_source_send (self : DataControl) (fd : Nat) (write_ret : Int) :
    Option (List DCall) :=
  match self.cb_data with
  | none => none
  | some _ =>
    let len := self.cb_len
    some ([DCall.write_fd fd len] ++
      (if write_ret < (len : Int) then [DCall.log_error] else []) ++
      [DCall.close_fd fd])

/-! Sample states used to instantiate the theorems at concrete inputs. -/

/-- A buffer in flight in the sample states below. -/
def bufWit : WvBuffer := ⟨7, .output, [], []⟩

/-- A negotiated session with a capture in flight. -/
def sWit : ExtScreencopy :=
  { calloc_session with
    surface := some 0, next_surface := 1,
    pool := some { free := [], next_id := 8 },
    cursor_pool := some { free := [], next_id := 0 },
    buffer := some bufWit,
    have_buffer_info := true, rate_limit := 30 }

/-- A session still waiting for negotiation to complete, with both pools. -/
def s0Wit : ExtScreencopy :=
  { sWit with have_buffer_info := false, buffer := none }

/-- A stored clipboard state used to instantiate the data-control theorems. -/
def dcWit : DataControl := ⟨true, some [1], 1, none, none, 0⟩

/-- C10: data_control_to_clipboard called with length zero returns after
logging, without modifying any state: the stored clipboard data and length
and the regular and primary selection handles are exactly as before. -/
theorem data_control_to_clipboard_zero_len (self : DataControl) (text : List Nat)
    (malloc_ok create_sel_ok create_primary_ok : Bool) :
    data_control_to_clipboard self text 0 malloc_ok create_sel_ok create_primary_ok
      = (self, [DCall.log_error]) := rfl

/-- Short-write behaviour of the clipboard source: the error is logged, the
write is not retried, and the descriptor is closed exactly once, last. -/
def ShortWriteSpec (self : DataControl) (fd : Nat) (write_ret : Int) : Prop :=
  data_control_source_send self fd write_ret
    = some [DCall.write_fd fd self.cb_len, DCall.log_error, DCall.close_fd fd]

/-- C9: when the clipboard source is asked to send and the write transfers
fewer bytes than the stored clipboard length, the handler emits exactly one
write, logs the error without retrying, and still closes the descriptor
exactly once before returning. -/
theorem data_control_source_send_short_write (self : DataControl) (fd : Nat)
    (write_ret : Int) (d : List Nat)
    (hd : self.cb_data = some d) (hshort : write_ret < (self.cb_len : Int)) :
    ShortWriteSpec self fd write_ret := by
  simp [ShortWriteSpec, data_control_source_send, hd, hshort]

/-- C9 witness: the short-write theorem applied at a concrete clipboard state
and descriptor. -/
theorem data_control_source_send_short_write_witness :
    dcWit.cb_data = some [1] ∧ (0 : Int) < (dcWit.cb_len : Int) ∧
    ShortWriteSpec dcWit 5 0 :=
  ⟨rfl, by decide, data_control_source_send_short_write dcWit 5 0 [1] rfl (by decide)⟩

/-- C8: at the failing input where the cursor pool allocation fails while
calloc, the output pool and the surface succeed, ext_screencopy_create does
not fail: because the source re-tests the output pool pointer instead of the
cursor pool pointer after the second allocation, the failure goes undetected
and a session whose cursor pool is null is returned, with the output pool
neither destroyed nor the session freed. -/
theorem ext_screencopy_create_cursor_pool_bug :
    ((ext_screencopy_create false true true false true).1.map
        (fun s => s.cursor_pool)) = some none
    ∧ PCall.pool_destroy WvBufferDomain.output
        ∉ (ext_screencopy_create false true true false true).2
    ∧ PCall.free_session ∉ (ext_screencopy_create false true true false true).2 := by
  decide

/-- C1 counterexample: from a negotiated session with a buffer in flight, a
failed event with reason INVALID_BUFFER recreates the surface but does not
reset the session to an uninitialized state: have_buffer_info stays true, and
a start issued right afterwards schedules a commit synchronously instead of
renegotiating from scratch. -/
theorem surface_handle_failed_no_reset_counterexample :
    ((surface_handle_failed sWit .invalid_buffer true).map
      (fun r => (r.1.have_buffer_info,
        (ext_screencopy_start r.1 false).map
          (fun q => (commitCount q.2.1, q.1.should_start)))))
      = some (true, some (1, false)) := by
  decide

/-- Behaviour of the failed-signal handler: the buffer goes back to the output
pool and is never delivered, the callback fires exactly once with FAILED and
no buffer, the session drops its buffer reference, the surface handle is
destroyed and freshly recreated exactly when the reason is INVALID_BUFFER,
and the negotiation flag is left unchanged. -/
def FailedResolutionSpec (s : ExtScreencopy) (b : WvBuffer) (p : WvBufferPool)
    (h0 : Nat) (reason : FailureReason) : Prop :=
  ∃ s' tr, surface_handle_failed s reason true = some (s', tr)
    ∧ PCall.pool_release .output b.id ∈ tr
    ∧ s'.pool = some (wv_buffer_pool_release p b)
    ∧ s'.buffer = none
    ∧ tr.filter isOnDone = [PCall.on_done .failed none]
    ∧ s'.have_buffer_info = s.have_buffer_info
    ∧ (reason = .invalid_buffer →
        PCall.surface_destroy h0 ∈ tr ∧ s'.surface = some s.next_surface
          ∧ s'.surface ≠ some h0)
    ∧ (reason ≠ .invalid_buffer →
        s'.surface = s.surface ∧ ∀ h, PCall.surface_destroy h ∉ tr)

/-- C1 (amended): when the failed signal is handled, the in-flight buffer is
returned to its pool (never delivered), the callback fires exactly once with
FAILED and no buffer, and the surface handle is destroyed and recreated as a
distinct handle iff the reason is INVALID_BUFFER, the handle being untouched
for any other reason; the session's negotiation state (have_buffer_info) is
left unchanged in all cases — the source does not reset it, so a start after
the recreation does not renegotiate first. -/
theorem surface_handle_failed_behavior (s : ExtScreencopy) (b : WvBuffer)
    (p : WvBufferPool) (h0 : Nat) (reason : FailureReason)
    (hb : s.buffer = some b) (hp : s.pool = some p)
    (hs : s.surface = some h0) (hfresh : h0 < s.next_surface) :
    FailedResolutionSpec s b p h0 reason := by
  by_cases hr : reason = FailureReason.invalid_buffer
  · subst hr
    refine ⟨{ s with
        pool := some (wv_buffer_pool_release p b), buffer := none,
        surface := some s.next_surface, next_surface := s.next_surface + 1 },
      [PCall.pool_release .output b.id, PCall.surface_destroy h0,
        PCall.surface_create s.next_surface, PCall.on_done .failed none],
      ?_, ?_, ?_, ?_, ?_, ?_, ?_, ?_⟩
    · simp [surface_handle_failed, hb, hp, ext_screencopy_init_surface, hs]
    · simp
    · rfl
    · rfl
    · simp [isOnDone, List.filter]
    · rfl
    · intro _
      refine ⟨by simp, rfl, ?_⟩
      simp only [ne_eq, Option.some.injEq]
      omega
    · intro h
      exact absurd rfl h
  · refine ⟨{ s with pool := some (wv_buffer_pool_release p b), buffer := none },
      [PCall.pool_release .output b.id, PCall.on_done .failed none],
      ?_, ?_, ?_, ?_, ?_, ?_, ?_, ?_⟩
    · simp [surface_handle_failed, hb, hp, hr]
    · simp
    · rfl
    · rfl
    · simp [isOnDone, List.filter]
    · rfl
    · intro h
      exact absurd h hr
    · intro _
      exact ⟨rfl, by simp⟩

/-- C1 witness: the failed-signal theorem applied at a concrete negotiated
session with a buffer in flight, for a reason other than INVALID_BUFFER. -/
theorem surface_handle_failed_behavior_witness :
    sWit.buffer = some bufWit ∧ sWit.pool = some { free := [], next_id := 8 }
    ∧ sWit.surface = some 0 ∧ 0 < sWit.next_surface
    ∧ FailedResolutionSpec sWit bufWit { free := [], next_id := 8 } 0 .unknown :=
  ⟨rfl, rfl, rfl, by decide,
    surface_handle_failed_behavior sWit bufWit _ 0 .unknown rfl rfl rfl (by decide)⟩

/-! Helper lemmas shared by the remaining theorems. -/

/-- Commit flags distribute over trace concatenation. -/
lemma commitFlagsList_append (a b : List PCall) :
    commitFlagsList (a ++ b) = commitFlagsList a ++ commitFlagsList b := by
  simp [commitFlagsList]

/-- Damage hints contribute no commit flags. -/
lemma commitFlagsList_damage_map (rs : List WvRect) :
    commitFlagsList (rs.map (fun r => PCall.damage_buffer r.x r.y r.w r.h)) = [] := by
  induction rs with
  | nil => rfl
  | cons a t ih => simpa [commitFlagsList, toCommitFlag] using ih

/-- The number of commits in a trace is the number of collected commit flags. -/
lemma commitCount_eq_flags_length (tr : List PCall) :
    commitCount tr = (commitFlagsList tr).length := by
  induction tr with
  | nil => rfl
  | cons a t ih =>
    cases a <;> simp [commitCount, commitFlagsList, isCommit, toCommitFlag] at ih ⊢ <;> omega

/-- The full result of schedule_capture when no cursor is present. -/
lemma schedule_capture_cursor_false (s : ExtScreencopy) (p : WvBufferPool) (imm : Bool)
    (hp : s.pool = some p) (hc : s.have_cursor = false) :
    ext_screencopy_schedule_capture s imm =
      some ({ s with
          pool := some (wv_buffer_pool_acquire p).2,
          buffer := some { (wv_buffer_pool_acquire p).1 with domain := .output } },
        [PCall.attach_buffer (wv_buffer_pool_acquire p).1.id] ++
          (wv_buffer_pool_acquire p).1.buffer_damage.map
            (fun r => PCall.damage_buffer r.x r.y r.w r.h) ++
          [PCall.commit { immediate := imm, render_cursors := s.render_cursors }]) := by
  simp [ext_screencopy_schedule_capture, hp, hc]

/-- The full result of schedule_capture when a cursor is present. -/
lemma schedule_capture_cursor_true (s : ExtScreencopy) (p cp : WvBufferPool) (imm : Bool)
    (hp : s.pool = some p) (hcp : s.cursor_pool = some cp) (hc : s.have_cursor = true) :
    ext_screencopy_schedule_capture s imm =
      some ({ s with
          pool := some (wv_buffer_pool_acquire p).2,
          buffer := some { (wv_buffer_pool_acquire p).1 with domain := .output },
          cursor_pool := some (wv_buffer_pool_acquire cp).2,
          cursor_buffer := some { (wv_buffer_pool_acquire cp).1 with domain := .cursor } },
        [PCall.attach_buffer (wv_buffer_pool_acquire p).1.id] ++
          (wv_buffer_pool_acquire p).1.buffer_damage.map
            (fun r => PCall.damage_buffer r.x r.y r.w r.h) ++
          ((if (wv_buffer_pool_acquire cp).1.buffer_damage ≠ [] then
              [PCall.damage_cursor_buffer] else []) ++
            [PCall.attach_cursor_buffer (wv_buffer_pool_acquire cp).1.id]) ++
          [PCall.commit { immediate := imm, render_cursors := s.render_cursors }]) := by
  simp [ext_screencopy_schedule_capture, hp, hcp, hc]

/-- The commit flags of an optional cursor damage hint: none. -/
lemma commitFlagsList_ite_dcb (c : Prop) [Decidable c] :
    commitFlagsList (if c then [PCall.damage_cursor_buffer] else []) = [] := by
  split <;> rfl

/-- Damage hints contribute no commit flags (composition form). -/
lemma filterMap_toCommitFlag_damage (rs : List WvRect) :
    List.filterMap (toCommitFlag ∘ fun r => PCall.damage_buffer r.x r.y r.w r.h) rs = [] := by
  induction rs with
  | nil => rfl
  | cons a t ih => simpa [toCommitFlag] using ih

/-- The two pool_resize calls emitted by init_done, selecting dmabuf
parameters when announced and wl_shm parameters otherwise. -/
def init_done_resize_calls (s : ExtScreencopy) : List PCall :=
  [PCall.pool_resize .output
      (if s.output.have_linux_dmabuf then WvBufferType.dmabuf else WvBufferType.shm)
      (if s.output.have_linux_dmabuf then s.output.dmabuf_width else s.output.wl_shm_width)
      (if s.output.have_linux_dmabuf then s.output.dmabuf_height else s.output.wl_shm_height)
      (if s.output.have_linux_dmabuf then 0 else s.output.wl_shm_stride)
      (if s.output.have_linux_dmabuf then s.output.dmabuf_format else s.output.wl_shm_format),
    PCall.pool_resize .cursor
      (if s.cursor.have_linux_dmabuf then WvBufferType.dmabuf else WvBufferType.shm)
      (if s.cursor.have_linux_dmabuf then s.cursor.dmabuf_width else s.cursor.wl_shm_width)
      (if s.cursor.have_linux_dmabuf then s.cursor.dmabuf_height else s.cursor.wl_shm_height)
      (if s.cursor.have_linux_dmabuf then 0 else s.cursor.wl_shm_stride)
      (if s.cursor.have_linux_dmabuf then s.cursor.dmabuf_format else s.cursor.wl_shm_format)]

/-- The resize calls contain no commit. -/
lemma commitFlagsList_resize_calls (s : ExtScreencopy) :
    commitFlagsList (init_done_resize_calls s) = [] := by
  simp [init_done_resize_calls, commitFlagsList, toCommitFlag]

/-- init_done without a pending start only resizes and completes negotiation. -/
lemma init_done_no_pending (s : ExtScreencopy) (hss : s.should_start = false) :
    surface_handle_init_done s
      = some ({ s with have_buffer_info := true }, init_done_resize_calls s) := by
  simp [surface_handle_init_done, hss, init_done_resize_calls]

/-- init_done with a pending start resizes, schedules the deferred capture and
clears the pending flags. -/
lemma init_done_with_pending (s s1 : ExtScreencopy) (tr1 : List PCall)
    (hss : s.should_start = true)
    (hsched : ext_screencopy_schedule_capture s s.shall_be_immediate = some (s1, tr1)) :
    surface_handle_init_done s
      = some ({ s1 with
          should_start := false, shall_be_immediate := false, have_buffer_info := true },
        init_done_resize_calls s ++ tr1) := by
  simp [surface_handle_init_done, hss, hsched, init_done_resize_calls]

/-- start once negotiation is complete is schedule_capture plus return 0. -/
lemma start_negotiated (s s1 : ExtScreencopy) (imm : Bool) (tr1 : List PCall)
    (hbi : s.have_buffer_info = true)
    (hsched : ext_screencopy_schedule_capture s imm = some (s1, tr1)) :
    ext_screencopy_start s imm = some (s1, tr1, 0) := by
  simp [ext_screencopy_start, hbi, hsched]

/-- The commit flags of a schedule_capture trace: exactly one commit, with the
requested IMMEDIATE bit and the configured RENDER_CURSORS bit. -/
lemma schedule_capture_flags (s s1 : ExtScreencopy) (imm : Bool) (tr1 : List PCall)
    (hsched : ext_screencopy_schedule_capture s imm = some (s1, tr1)) :
    commitFlagsList tr1 = [⟨imm, s.render_cursors⟩] := by
  rcases hpool : s.pool with _ | p
  · rw [ext_screencopy_schedule_capture, hpool] at hsched
    exact absurd hsched (by simp)
  · by_cases hcur : s.have_cursor
    · rcases hcpool : s.cursor_pool with _ | cp
      · rw [ext_screencopy_schedule_capture, hpool] at hsched
        simp only [hcur, if_true, hcpool] at hsched
        exact absurd hsched (by simp)
      · rw [schedule_capture_cursor_true s p cp imm hpool hcpool hcur] at hsched
        obtain ⟨-, htr⟩ := Prod.mk.injEq .. ▸ Option.some.injEq .. ▸ hsched
        subst htr
        simp [commitFlagsList_append, commitFlagsList, toCommitFlag,
          filterMap_toCommitFlag_damage]
    · rw [schedule_capture_cursor_false s p imm hpool (by simpa using hcur)] at hsched
      obtain ⟨-, htr⟩ := Prod.mk.injEq .. ▸ Option.some.injEq .. ▸ hsched
      subst htr
      simp [commitFlagsList_append, commitFlagsList, toCommitFlag,
        filterMap_toCommitFlag_damage]

/-- init_done with a pending start schedules exactly one capture, with the
recorded immediate value, and clears the pending flags. -/
lemma init_done_pending (s : ExtScreencopy) (p cp : WvBufferPool)
    (hp : s.pool = some p) (hcp : s.cursor_pool = some cp) (hss : s.should_start = true) :
    ∃ s3 tr3, surface_handle_init_done s = some (s3, tr3)
      ∧ commitFlagsList tr3 = [⟨s.shall_be_immediate, s.render_cursors⟩]
      ∧ s3.should_start = false ∧ s3.shall_be_immediate = false
      ∧ s3.have_buffer_info = true
      ∧ s3.pool = some (wv_buffer_pool_acquire p).2
      ∧ s3.cursor_pool
          = some (if s.have_cursor then (wv_buffer_pool_acquire cp).2 else cp)
      ∧ s3.render_cursors = s.render_cursors := by
  by_cases hcur : s.have_cursor
  · have hsched := schedule_capture_cursor_true s p cp s.shall_be_immediate hp hcp hcur
    have hinit := init_done_with_pending s _ _ hss hsched
    refine ⟨_, _, hinit, ?_, rfl, rfl, rfl, rfl, by simp [hcur], rfl⟩
    rw [commitFlagsList_append, commitFlagsList_resize_calls,
      schedule_capture_flags s _ _ _ hsched]
    rfl
  · have hsched := schedule_capture_cursor_false s p s.shall_be_immediate hp
      (by simpa using hcur)
    have hinit := init_done_with_pending s _ _ hss hsched
    refine ⟨_, _, hinit, ?_, rfl, rfl, rfl, rfl, by simp [hcur, hcp], rfl⟩
    rw [commitFlagsList_append, commitFlagsList_resize_calls,
      schedule_capture_flags s _ _ _ hsched]
    rfl

/-- A start issued once negotiation is complete schedules exactly one commit
synchronously, with IMMEDIATE as requested. -/
lemma start_negotiated_commits (s : ExtScreencopy) (p cp : WvBufferPool) (imm : Bool)
    (hp : s.pool = some p) (hcp : s.cursor_pool = some cp) (hbi : s.have_buffer_info = true) :
    ∃ s4 tr4, ext_screencopy_start s imm = some (s4, tr4, 0)
      ∧ commitFlagsList tr4 = [⟨imm, s.render_cursors⟩] := by
  by_cases hcur : s.have_cursor
  · have hsched := schedule_capture_cursor_true s p cp imm hp hcp hcur
    exact ⟨_, _, start_negotiated s _ imm _ hbi hsched, schedule_capture_flags s _ _ _ hsched⟩
  · have hsched := schedule_capture_cursor_false s p imm hp (by simpa using hcur)
    exact ⟨_, _, start_negotiated s _ imm _ hbi hsched, schedule_capture_flags s _ _ _ hsched⟩

/-- Deferred-start behaviour around negotiation: two starts before
negotiation completes both defer and the second overwrites the recorded
immediate flag non-additively; the negotiation-complete signal then schedules
exactly one capture with the last-recorded value and clears both pending
flags; a start once negotiation is complete schedules exactly one capture
synchronously. -/
def StartPendingSpec (s : ExtScreencopy) (imm imm2 imm3 : Bool) : Prop :=
  ext_screencopy_start s imm
      = some ({ s with should_start := true, shall_be_immediate := imm }, [], 0)
    ∧ ext_screencopy_start { s with should_start := true, shall_be_immediate := imm } imm2
      = some ({ s with should_start := true, shall_be_immediate := imm2 }, [], 0)
    ∧ ∃ s3 tr3, surface_handle_init_done
        { s with should_start := true, shall_be_immediate := imm2 } = some (s3, tr3)
      ∧ commitFlagsList tr3 = [⟨imm2, s.render_cursors⟩]
      ∧ s3.should_start = false ∧ s3.shall_be_immediate = false
      ∧ s3.have_buffer_info = true
      ∧ ∃ s4 tr4, ext_screencopy_start s3 imm3 = some (s4, tr4, 0)
        ∧ commitFlagsList tr4 = [⟨imm3, s.render_cursors⟩]

/-- C2: every start before negotiation completes is recorded in the pending
flags, a later start overwrites the pending immediate flag non-additively,
the negotiation-complete signal schedules exactly one capture with the
last-recorded value and clears both flags, and a start after negotiation is
complete schedules a capture synchronously. -/
theorem ext_screencopy_start_pending (s : ExtScreencopy) (p cp : WvBufferPool)
    (imm imm2 imm3 : Bool) (hp : s.pool = some p) (hcp : s.cursor_pool = some cp)
    (hbi : s.have_buffer_info = false) :
    StartPendingSpec s imm imm2 imm3 := by
  refine ⟨by simp [ext_screencopy_start, hbi], by simp [ext_screencopy_start, hbi], ?_⟩
  obtain ⟨s3, tr3, h3, hflags, hss, hsbi, hhbi, hpool, hcpool, hrc⟩ :=
    init_done_pending { s with should_start := true, shall_be_immediate := imm2 } p cp
      hp hcp rfl
  obtain ⟨s4, tr4, h4, hflags4⟩ :=
    start_negotiated_commits s3 (wv_buffer_pool_acquire p).2 _ imm3 hpool hcpool hhbi
  exact ⟨s3, tr3, h3, hflags, hss, hsbi, hhbi, s4, tr4, h4, by rw [hflags4, hrc]⟩

/-- C2 witness: the pending-start theorem applied at a concrete
pre-negotiation session. -/
theorem ext_screencopy_start_pending_witness :
    s0Wit.pool = some { free := [], next_id := 8 }
    ∧ s0Wit.cursor_pool = some { free := [], next_id := 0 }
    ∧ s0Wit.have_buffer_info = false
    ∧ StartPendingSpec s0Wit true false true :=
  ⟨rfl, rfl, rfl,
    ext_screencopy_start_pending s0Wit _ _ true false true rfl rfl rfl⟩

/-- The commit cycle performed by one scheduled capture, in order: acquire and
tag an output buffer, attach it, one damage hint per rectangle of its pending
damage (none when empty), optional cursor calls, and a single final commit
whose flags carry IMMEDIATE iff requested and RENDER_CURSORS iff configured. -/
def ScheduleCaptureSpec (s : ExtScreencopy) (p : WvBufferPool) (imm : Bool) : Prop :=
  ∃ s' tr cursorPart,
    ext_screencopy_schedule_capture s imm = some (s', tr)
    ∧ s'.buffer = some { (wv_buffer_pool_acquire p).1 with domain := .output }
    ∧ s'.pool = some (wv_buffer_pool_acquire p).2
    ∧ tr = [PCall.attach_buffer (wv_buffer_pool_acquire p).1.id]
        ++ (wv_buffer_pool_acquire p).1.buffer_damage.map
            (fun r => PCall.damage_buffer r.x r.y r.w r.h)
        ++ cursorPart
        ++ [PCall.commit { immediate := imm, render_cursors := s.render_cursors }]
    ∧ (cursorPart = [] ↔ s.have_cursor = false)
    ∧ (∀ c ∈ cursorPart, c = PCall.damage_cursor_buffer
        ∨ ∃ i, c = PCall.attach_cursor_buffer i)
    ∧ commitCount tr = 1

/-- C4: every scheduled capture acquires an output buffer from the output pool
tagged with domain OUTPUT, attaches it, submits exactly the buffer's own
pending-damage rectangles as damage hints (none when the set is empty), sets
IMMEDIATE iff requested and RENDER_CURSORS iff configured, optionally attaches
a cursor buffer, and finally issues exactly one commit, last. -/
theorem ext_screencopy_schedule_capture_cycle (s : ExtScreencopy)
    (p cp : WvBufferPool) (imm : Bool)
    (hp : s.pool = some p) (hcp : s.cursor_pool = some cp) :
    ScheduleCaptureSpec s p imm := by
  by_cases hcur : s.have_cursor
  · have hsched := schedule_capture_cursor_true s p cp imm hp hcp hcur
    refine ⟨_, _,
      (if (wv_buffer_pool_acquire cp).1.buffer_damage ≠ [] then
          [PCall.damage_cursor_buffer] else []) ++
        [PCall.attach_cursor_buffer (wv_buffer_pool_acquire cp).1.id],
      hsched, rfl, rfl, rfl, by simp [hcur], ?_, ?_⟩
    · intro c hc
      by_cases hdc : (wv_buffer_pool_acquire cp).1.buffer_damage = []
      · simp [hdc] at hc
        exact Or.inr ⟨_, hc⟩
      · simp [hdc] at hc
        rcases hc with rfl | rfl
        · exact Or.inl rfl
        · exact Or.inr ⟨_, rfl⟩
    · rw [commitCount_eq_flags_length, schedule_capture_flags s _ imm _ hsched]
      rfl
  · have hcur' : s.have_cursor = false := by simpa using hcur
    have hsched := schedule_capture_cursor_false s p imm hp hcur'
    refine ⟨_, _, [], hsched, rfl, rfl, by simp, by simp [hcur'], by simp, ?_⟩
    rw [commitCount_eq_flags_length, schedule_capture_flags s _ imm _ hsched]
    rfl

/-- C4 witness: the commit-cycle theorem applied at a concrete negotiated
session. -/
theorem ext_screencopy_schedule_capture_cycle_witness :
    sWit.pool = some { free := [], next_id := 8 }
    ∧ sWit.cursor_pool = some { free := [], next_id := 0 }
    ∧ ScheduleCaptureSpec sWit { free := [], next_id := 8 } true :=
  ⟨rfl, rfl, ext_screencopy_schedule_capture_cycle sWit _ _ true rfl rfl⟩

/-- init_surface leaves the rest of the session untouched and commits nothing. -/
lemma init_surface_shape (x : ExtScreencopy) (ok : Bool) :
    (ext_screencopy_init_surface x ok).1.have_cursor = x.have_cursor
    ∧ (ext_screencopy_init_surface x ok).1.have_buffer_info = x.have_buffer_info
    ∧ commitCount (ext_screencopy_init_surface x ok).2.1 = 0 := by
  rcases hs : x.surface with _ | h0 <;> cases ok <;>
    simp [ext_screencopy_init_surface, hs, commitCount, isCommit]

/-- schedule_capture leaves the session's flags untouched. -/
lemma schedule_capture_preserves (s s' : ExtScreencopy) (imm : Bool) (tr : List PCall)
    (h : ext_screencopy_schedule_capture s imm = some (s', tr)) :
    s'.have_cursor = s.have_cursor ∧ s'.have_buffer_info = s.have_buffer_info
      ∧ s'.should_start = s.should_start ∧ s'.render_cursors = s.render_cursors := by
  rcases hpool : s.pool with _ | p
  · rw [ext_screencopy_schedule_capture, hpool] at h
    exact absurd h (by simp)
  · by_cases hcur : s.have_cursor
    · rcases hcpool : s.cursor_pool with _ | cp
      · rw [ext_screencopy_schedule_capture, hpool] at h
        simp only [hcur, if_true, hcpool] at h
        exact absurd h (by simp)
      · rw [schedule_capture_cursor_true s p cp imm hpool hcpool hcur] at h
        obtain ⟨hs, -⟩ := Prod.mk.injEq .. ▸ Option.some.injEq .. ▸ h
        subst hs
        exact ⟨rfl, rfl, rfl, rfl⟩
    · rw [schedule_capture_cursor_false s p imm hpool (by simpa using hcur)] at h
      obtain ⟨hs, -⟩ := Prod.mk.injEq .. ▸ Option.some.injEq .. ▸ h
      subst hs
      exact ⟨rfl, rfl, rfl, rfl⟩

/-- init_done leaves cursor presence untouched. -/
lemma init_done_preserves_have_cursor (s s' : ExtScreencopy) (tr : List PCall)
    (h : surface_handle_init_done s = some (s', tr)) :
    s'.have_cursor = s.have_cursor := by
  by_cases hss : s.should_start
  · rcases hsched : ext_screencopy_schedule_capture s s.shall_be_immediate with _ | r
    · rw [surface_handle_init_done] at h
      simp only [hss, if_true, hsched] at h
      exact absurd h (by simp)
    · rw [init_done_with_pending s r.1 r.2 hss hsched] at h
      obtain ⟨hs, -⟩ := Prod.mk.injEq .. ▸ Option.some.injEq .. ▸ h
      subst hs
      exact (schedule_capture_preserves s r.1 _ r.2 hsched).1
  · rw [init_done_no_pending s (by simpa using hss)] at h
    obtain ⟨hs, -⟩ := Prod.mk.injEq .. ▸ Option.some.injEq .. ▸ h
    subst hs
    rfl

/-- Every dispatched operation other than cursor_enter and cursor_leave leaves
cursor presence untouched. -/
lemma sc_step_preserves_have_cursor (s s' : ExtScreencopy) (a : SCAction)
    (tr : List PCall)
    (h1 : a ≠ SCAction.cursor_enter) (h2 : a ≠ SCAction.cursor_leave)
    (h : sc_step s a = some (s', tr)) :
    s'.have_cursor = s.have_cursor := by
  cases a with
  | start imm =>
    simp only [sc_step, Option.map_eq_some'] at h
    obtain ⟨r, hr, hmap⟩ := h
    obtain ⟨hs', -⟩ := Prod.mk.injEq .. ▸ hmap
    by_cases hbi : s.have_buffer_info
    · rcases hsched : ext_screencopy_schedule_capture s imm with _ | r2
      · rw [ext_screencopy_start] at hr
        simp only [hbi, Bool.not_true, Bool.false_eq_true, if_false, hsched] at hr
        exact absurd hr (by simp)
      · rw [start_negotiated s r2.1 imm r2.2 hbi hsched] at hr
        obtain ⟨hr1, -⟩ := Prod.mk.injEq .. ▸ Option.some.injEq .. ▸ hr
        rw [← hs', ← hr1]
        exact (schedule_capture_preserves s r2.1 imm r2.2 hsched).1
    · have hbi' : s.have_buffer_info = false := by simpa using hbi
      rw [ext_screencopy_start] at hr
      simp only [hbi', Bool.not_false, if_true] at hr
      obtain ⟨hr1, -⟩ := Prod.mk.injEq .. ▸ Option.some.injEq .. ▸ hr
      rw [← hs', ← hr1]
  | reconfig =>
    simp only [sc_step, Option.some.injEq] at h
    obtain ⟨hs', -⟩ := Prod.mk.injEq .. ▸ h
    rw [← hs']
    rfl
  | buffer_info t f w ht st =>
    simp only [sc_step, Option.some.injEq] at h
    obtain ⟨hs', -⟩ := Prod.mk.injEq .. ▸ h
    rw [← hs']
    cases t <;> rfl
  | cursor_buffer_info t f w ht st =>
    simp only [sc_step, Option.some.injEq] at h
    obtain ⟨hs', -⟩ := Prod.mk.injEq .. ▸ h
    rw [← hs']
    cases t <;> rfl
  | init_done =>
    simp only [sc_step] at h
    exact init_done_preserves_have_cursor s s' tr h
  | damage x y w ht =>
    simp only [sc_step, Option.map_eq_some'] at h
    obtain ⟨r, hr, hmap⟩ := h
    obtain ⟨hs', -⟩ := Prod.mk.injEq .. ▸ hmap
    rcases hbuf : s.buffer with _ | b
    · rw [surface_handle_damage, hbuf] at hr
      simp at hr
    · rw [surface_handle_damage, hbuf] at hr
      obtain hr1 := Option.some.injEq .. ▸ hr
      rw [← hs', ← hr1]
  | cursor_enter => exact absurd rfl h1
  | cursor_leave => exact absurd rfl h2
  | ready =>
    simp only [sc_step] at h
    rcases hbuf : s.buffer with _ | b
    · rw [surface_handle_ready, hbuf] at h
      simp at h
    · rw [surface_handle_ready, hbuf] at h
      obtain ⟨hs', -⟩ := Prod.mk.injEq .. ▸ Option.some.injEq .. ▸ h
      rw [← hs']
  | failed reason ok =>
    simp only [sc_step] at h
    rcases hbuf : s.buffer with _ | b
    · rw [surface_handle_failed, hbuf] at h
      simp at h
    · rcases hpool : s.pool with _ | p
      · rw [surface_handle_failed, hbuf] at h
        simp only [hpool] at h
        exact absurd h (by simp)
      · rw [surface_handle_failed, hbuf] at h
        simp only [hpool] at h
        obtain ⟨hs', -⟩ := Prod.mk.injEq .. ▸ Option.some.injEq .. ▸ h
        rw [← hs']
        by_cases hre : reason = FailureReason.invalid_buffer
        · simp only [hre, if_true]
          exact (init_surface_shape _ ok).1
        · simp only [hre, if_false]

/-- Cursor presence behaviour: a commit cycle acquires a cursor buffer from
the cursor pool and attaches it iff cursor presence is recorded, the output
buffer state notwithstanding; presence is set by enter, cleared by leave, and
untouched by every other operation. -/
def CursorPresenceSpec (s : ExtScreencopy) (cp : WvBufferPool) (imm : Bool) : Prop :=
  (∃ s' tr, ext_screencopy_schedule_capture s imm = some (s', tr)
    ∧ ((∃ i, PCall.attach_cursor_buffer i ∈ tr) ↔ s.have_cursor = true)
    ∧ (s.have_cursor = true →
        s'.cursor_buffer = some { (wv_buffer_pool_acquire cp).1 with domain := .cursor }
          ∧ s'.cursor_pool = some (wv_buffer_pool_acquire cp).2)
    ∧ (s.have_cursor = false →
        s'.cursor_buffer = s.cursor_buffer ∧ s'.cursor_pool = s.cursor_pool))
  ∧ (surface_handle_cursor_enter s).have_cursor = true
  ∧ (surface_handle_cursor_leave s).have_cursor = false
  ∧ ∀ a s' tr, a ≠ SCAction.cursor_enter → a ≠ SCAction.cursor_leave →
      sc_step s a = some (s', tr) → s'.have_cursor = s.have_cursor

/-- C6: a cursor buffer is acquired from the cursor pool and attached to the
commit iff the most recent presence signal before the commit said "present"
(independent of the output-buffer state), and cursor presence is toggled
exclusively by the enter and leave signals. -/
theorem cursor_presence_commit_iff (s : ExtScreencopy) (p cp : WvBufferPool)
    (imm : Bool) (hp : s.pool = some p) (hcp : s.cursor_pool = some cp) :
    CursorPresenceSpec s cp imm := by
  refine ⟨?_, rfl, rfl, fun a s' tr h1 h2 h =>
    sc_step_preserves_have_cursor s s' a tr h1 h2 h⟩
  by_cases hcur : s.have_cursor
  · have hsched := schedule_capture_cursor_true s p cp imm hp hcp hcur
    refine ⟨_, _, hsched, ?_, fun _ => ⟨rfl, rfl⟩, fun hf => ?_⟩
    · constructor
      · intro _
        exact hcur
      · intro _
        exact ⟨(wv_buffer_pool_acquire cp).1.id, by simp⟩
    · rw [hcur] at hf
      exact absurd hf (by simp)
  · have hcur' : s.have_cursor = false := by simpa using hcur
    have hsched := schedule_capture_cursor_false s p imm hp hcur'
    refine ⟨_, _, hsched, ?_, fun hf => ?_, fun _ => ⟨rfl, rfl⟩⟩
    · constructor
      · rintro ⟨i, hi⟩
        exfalso
        simp at hi
      · intro hf
        rw [hcur'] at hf
        exact absurd hf (by simp)
    · rw [hcur'] at hf
      exact absurd hf (by simp)

/-- C6 witness: the cursor-presence theorem applied at a concrete negotiated
session. -/
theorem cursor_presence_commit_iff_witness :
    sWit.pool = some { free := [], next_id := 8 }
    ∧ sWit.cursor_pool = some { free := [], next_id := 0 }
    ∧ CursorPresenceSpec sWit { free := [], next_id := 0 } false :=
  ⟨rfl, rfl, cursor_presence_commit_iff sWit _ _ false rfl rfl⟩

/-- Commit counts add over trace concatenation. -/
lemma commitCount_append (a b : List PCall) :
    commitCount (a ++ b) = commitCount a + commitCount b := by
  simp [commitCount]

/-- One dispatched operation other than init_done keeps the session
un-negotiated and commits nothing. -/
lemma sc_step_window (s s' : ExtScreencopy) (a : SCAction) (tr : List PCall)
    (ha : a ≠ SCAction.init_done) (hbi : s.have_buffer_info = false)
    (h : sc_step s a = some (s', tr)) :
    s'.have_buffer_info = false ∧ commitCount tr = 0 := by
  cases a with
  | start imm =>
    simp only [sc_step, Option.map_eq_some'] at h
    obtain ⟨r, hr, hmap⟩ := h
    rw [ext_screencopy_start] at hr
    simp only [hbi, Bool.not_false, if_true] at hr
    obtain rfl := (Option.some.inj hr)
    obtain ⟨hs', htr⟩ := Prod.mk.injEq .. ▸ hmap
    subst hs'
    subst htr
    exact ⟨rfl, rfl⟩
  | reconfig =>
    simp only [sc_step, Option.some.injEq] at h
    obtain ⟨hs', htr⟩ := Prod.mk.injEq .. ▸ h
    subst hs'
    subst htr
    exact ⟨rfl, rfl⟩
  | buffer_info t f w ht st =>
    simp only [sc_step, Option.some.injEq] at h
    obtain ⟨hs', htr⟩ := Prod.mk.injEq .. ▸ h
    subst hs'
    subst htr
    refine ⟨?_, rfl⟩
    cases t <;> exact hbi
  | cursor_buffer_info t f w ht st =>
    simp only [sc_step, Option.some.injEq] at h
    obtain ⟨hs', htr⟩ := Prod.mk.injEq .. ▸ h
    subst hs'
    subst htr
    refine ⟨?_, rfl⟩
    cases t <;> exact hbi
  | init_done => exact absurd rfl ha
  | damage x y w ht =>
    simp only [sc_step, Option.map_eq_some'] at h
    obtain ⟨r, hr, hmap⟩ := h
    rcases hbuf : s.buffer with _ | b
    · rw [surface_handle_damage, hbuf] at hr
      exact absurd hr (by simp)
    · rw [surface_handle_damage, hbuf] at hr
      obtain rfl := (Option.some.inj hr)
      obtain ⟨hs', htr⟩ := Prod.mk.injEq .. ▸ hmap
      subst hs'
      subst htr
      exact ⟨hbi, rfl⟩
  | cursor_enter =>
    simp only [sc_step, Option.some.injEq] at h
    obtain ⟨hs', htr⟩ := Prod.mk.injEq .. ▸ h
    subst hs'
    subst htr
    exact ⟨hbi, rfl⟩
  | cursor_leave =>
    simp only [sc_step, Option.some.injEq] at h
    obtain ⟨hs', htr⟩ := Prod.mk.injEq .. ▸ h
    subst hs'
    subst htr
    exact ⟨hbi, rfl⟩
  | ready =>
    simp only [sc_step] at h
    rcases hbuf : s.buffer with _ | b
    · rw [surface_handle_ready, hbuf] at h
      exact absurd h (by simp)
    · rw [surface_handle_ready, hbuf] at h
      obtain ⟨hs', htr⟩ := Prod.mk.injEq .. ▸ Option.some.injEq .. ▸ h
      subst hs'
      subst htr
      exact ⟨hbi, rfl⟩
  | failed reason ok =>
    simp only [sc_step] at h
    rcases hbuf : s.buffer with _ | b
    · rw [surface_handle_failed, hbuf] at h
      exact absurd h (by simp)
    · rcases hpool : s.pool with _ | p
      · rw [surface_handle_failed, hbuf] at h
        simp only [hpool] at h
        exact absurd h (by simp)
      · rw [surface_handle_failed, hbuf] at h
        simp only [hpool] at h
        obtain ⟨hs', htr⟩ := Prod.mk.injEq .. ▸ Option.some.injEq .. ▸ h
        subst hs'
        subst htr
        by_cases hre : reason = FailureReason.invalid_buffer
        · simp only [hre, if_true]
          refine ⟨?_, ?_⟩
          · rw [(init_surface_shape _ ok).2.1]
            exact hbi
          · rw [commitCount_append, commitCount_append, (init_surface_shape _ ok).2.2]
            rfl
        · simp only [hre, if_false]
          exact ⟨hbi, rfl⟩

/-- A run of dispatched operations that never contains init_done keeps the
session un-negotiated and commits nothing. -/
lemma sc_run_window : ∀ (acts : List SCAction) (s : ExtScreencopy),
    SCAction.init_done ∉ acts → s.have_buffer_info = false →
    ∀ s' tr, sc_run s acts = some (s', tr) →
      s'.have_buffer_info = false ∧ commitCount tr = 0 := by
  intro acts
  induction acts with
  | nil =>
    intro s hno hbi s' tr h
    obtain ⟨hs', htr⟩ := Prod.mk.injEq .. ▸ Option.some.injEq .. ▸ h
    subst hs'
    subst htr
    exact ⟨hbi, rfl⟩
  | cons a rest ih =>
    intro s hno hbi s' tr h
    rw [sc_run] at h
    rcases hstep : sc_step s a with _ | r
    · rw [hstep] at h
      exact absurd h (by simp)
    · rw [hstep] at h
      dsimp only at h
      rcases hrun : sc_run r.1 rest with _ | r2
      · rw [hrun] at h
        exact absurd h (by simp)
      · rw [hrun] at h
        dsimp only at h
        obtain ⟨hs', htr⟩ := Prod.mk.injEq .. ▸ Option.some.injEq .. ▸ h
        subst hs'
        subst htr
        have ha : a ≠ SCAction.init_done := fun hEq =>
          hno (hEq ▸ List.mem_cons_self a rest)
        obtain ⟨hbi1, hc1⟩ := sc_step_window s r.1 a r.2 ha hbi hstep
        obtain ⟨hbi2, hc2⟩ := ih r.1 (fun hm => hno (List.mem_cons_of_mem _ hm))
          hbi1 r2.1 r2.2 hrun
        exact ⟨hbi2, by rw [commitCount_append, hc1, hc2]⟩

/-- Behaviour of the reconfiguration window: reconfig invalidates the
negotiation flag and the output domain's dmabuf descriptor, and however many
operations follow before the next init_done, the session stays un-negotiated,
no commit is issued, and any start in that window is deferred into the
pending flags with no calls emitted. -/
def ReconfigWindowSpec (s : ExtScreencopy) (acts : List SCAction) : Prop :=
  (surface_handle_reconfig s).have_buffer_info = false
  ∧ (surface_handle_reconfig s).output.have_linux_dmabuf = false
  ∧ ∀ s' tr, sc_run (surface_handle_reconfig s) acts = some (s', tr) →
      s'.have_buffer_info = false ∧ commitCount tr = 0
      ∧ ∀ imm, ext_screencopy_start s' imm =
          some ({ s' with should_start := true, shall_be_immediate := imm }, [], 0)

/-- C5: a reconfiguration signal invalidates the negotiated descriptor and no
commit can occur before renegotiation completes: every start issued between
the reconfig signal and the next negotiation-complete signal is deferred
rather than committed. -/
theorem surface_handle_reconfig_window (s : ExtScreencopy) (acts : List SCAction)
    (hno : SCAction.init_done ∉ acts) :
    ReconfigWindowSpec s acts := by
  refine ⟨rfl, rfl, ?_⟩
  intro s' tr h
  obtain ⟨h1, h2⟩ := sc_run_window acts _ hno rfl s' tr h
  refine ⟨h1, h2, fun imm => ?_⟩
  simp [ext_screencopy_start, h1]

/-- C5 witness: the reconfig-window theorem applied at a concrete session and
a concrete window containing a start, a damage event and a ready event. -/
theorem surface_handle_reconfig_window_witness :
    SCAction.init_done ∉ [SCAction.start true, SCAction.damage 0 0 1 1, SCAction.ready]
    ∧ ReconfigWindowSpec sWit [SCAction.start true, SCAction.damage 0 0 1 1, SCAction.ready] :=
  ⟨by decide, surface_handle_reconfig_window sWit _ (by decide)⟩

/-- An acquired buffer's frame damage starts from its staleness. -/
lemma acquire_frame_eq_staleness (p : WvBufferPool) :
    (wv_buffer_pool_acquire p).1.frame_damage
      = (wv_buffer_pool_acquire p).1.buffer_damage := by
  rcases hf : p.free with _ | ⟨b, rest⟩ <;> simp [wv_buffer_pool_acquire, hf]

/-- A run of damage events accumulates exactly their rectangles, in order,
into the in-flight buffer's frame damage, and emits no calls. -/
lemma sc_run_damage (rs : List WvRect) : ∀ (s : ExtScreencopy) (b : WvBuffer),
    s.buffer = some b →
    sc_run s (rs.map (fun r => SCAction.damage r.x r.y r.w r.h))
      = some ({ s with
          buffer := some { b with frame_damage := b.frame_damage ++ rs } }, []) := by
  induction rs with
  | nil =>
    intro s b hb
    simp only [List.map_nil, sc_run, List.append_nil]
    rw [show ({ b with frame_damage := b.frame_damage } : WvBuffer) = b from rfl, ← hb]
  | cons a t ih =>
    intro s b hb
    have hstep : sc_step s (SCAction.damage a.x a.y a.w a.h)
        = some ({ s with
            buffer := some { b with frame_damage := b.frame_damage ++ [a] } }, []) := by
      simp [sc_step, surface_handle_damage, hb, wv_buffer_damage_rect, WvRegion.union]
    rw [List.map_cons, sc_run, hstep]
    dsimp only
    rw [ih _ { b with frame_damage := b.frame_damage ++ [a] } rfl]
    simp

/-- Runs compose: the calls of a concatenated run are the concatenated calls. -/
lemma sc_run_append (l1 l2 : List SCAction) : ∀ (s s1 : ExtScreencopy) (t1 : List PCall),
    sc_run s l1 = some (s1, t1) → ∀ s2 t2, sc_run s1 l2 = some (s2, t2) →
    sc_run s (l1 ++ l2) = some (s2, t1 ++ t2) := by
  induction l1 with
  | nil =>
    intro s s1 t1 h1 s2 t2 h2
    obtain ⟨hs, ht⟩ := Prod.mk.injEq .. ▸ Option.some.injEq .. ▸ h1
    subst hs
    subst ht
    simpa using h2
  | cons a rest ih =>
    intro s s1 t1 h1 s2 t2 h2
    rw [sc_run] at h1
    rcases hstep : sc_step s a with _ | r
    · rw [hstep] at h1
      exact absurd h1 (by simp)
    · rw [hstep] at h1
      dsimp only at h1
      rcases hrun : sc_run r.1 rest with _ | r2
      · rw [hrun] at h1
        exact absurd h1 (by simp)
      · rw [hrun] at h1
        dsimp only at h1
        obtain ⟨hs, ht⟩ := Prod.mk.injEq .. ▸ Option.some.injEq .. ▸ h1
        subst hs
        subst ht
        rw [List.cons_append, sc_run, hstep]
        dsimp only
        rw [ih r.1 r2.1 r2.2 hrun s2 t2 h2]
        dsimp only
        rw [List.append_assoc]

/-- The ready event merges the in-flight buffer's frame damage into the
OUTPUT registry, clears its pending damage, detaches it and delivers it. -/
lemma sc_run_ready (s : ExtScreencopy) (b : WvBuffer) (hb : s.buffer = some b) :
    sc_run s [SCAction.ready] = some
      ({ s with
          registry_output :=
            wv_buffer_registry_damage_all s.registry_output b.frame_damage,
          buffer := none },
        [PCall.on_done .done (some { b with buffer_damage := [] })]) := by
  simp [sc_run, sc_step, surface_handle_ready, hb]

/-- Delivery behaviour of a ready resolution: the delivered frame's damage is
the union of the acquired buffer's staleness and the protocol-reported
rectangles since the commit, that damage is merged into the OUTPUT-domain
registry, the delivered buffer's own pending damage is cleared, the session
detaches the buffer, and the callback fires exactly once with DONE and it. -/
def ReadyDeliverySpec (s : ExtScreencopy) (p : WvBufferPool) (imm : Bool)
    (rs : List WvRect) : Prop :=
  ∃ s1 tr1 s2 tr2,
    ext_screencopy_schedule_capture s imm = some (s1, tr1)
    ∧ sc_run s1 (rs.map (fun r => SCAction.damage r.x r.y r.w r.h) ++ [SCAction.ready])
        = some (s2, tr2)
    ∧ tr2 = [PCall.on_done .done (some
        { id := (wv_buffer_pool_acquire p).1.id, domain := .output,
          buffer_damage := [],
          frame_damage := WvRegion.union (wv_buffer_pool_acquire p).1.buffer_damage rs })]
    ∧ s2.buffer = none
    ∧ s2.registry_output = wv_buffer_registry_damage_all s.registry_output
        (WvRegion.union (wv_buffer_pool_acquire p).1.buffer_damage rs)

/-- C3: after a commit, any damage events and then ready deliver the acquired
buffer exactly once with status DONE, its frame damage being the union of the
protocol-reported rectangles since the commit and the buffer's pre-existing
staleness; that damage is merged into the OUTPUT cross-buffer registry, the
buffer's own pending damage is cleared, and the session retains no reference. -/
theorem surface_handle_ready_delivery (s : ExtScreencopy) (p cp : WvBufferPool)
    (imm : Bool) (rs : List WvRect)
    (hp : s.pool = some p) (hcp : s.cursor_pool = some cp) :
    ReadyDeliverySpec s p imm rs := by
  by_cases hcur : s.have_cursor
  · have hsched := schedule_capture_cursor_true s p cp imm hp hcp hcur
    refine ⟨_, _, _, _, hsched,
      sc_run_append _ _ _ _ _ (sc_run_damage rs _ _ rfl) _ _ (sc_run_ready _ _ rfl),
      ?_, rfl, ?_⟩
    · simp [WvRegion.union, acquire_frame_eq_staleness]
    · simp [wv_buffer_registry_damage_all, WvRegion.union, acquire_frame_eq_staleness]
  · have hsched := schedule_capture_cursor_false s p imm hp (by simpa using hcur)
    refine ⟨_, _, _, _, hsched,
      sc_run_append _ _ _ _ _ (sc_run_damage rs _ _ rfl) _ _ (sc_run_ready _ _ rfl),
      ?_, rfl, ?_⟩
    · simp [WvRegion.union, acquire_frame_eq_staleness]
    · simp [wv_buffer_registry_damage_all, WvRegion.union, acquire_frame_eq_staleness]

/-- C3 witness: the ready-delivery theorem applied at a concrete negotiated
session and a concrete damage sequence. -/
theorem surface_handle_ready_delivery_witness :
    sWit.pool = some { free := [], next_id := 8 }
    ∧ sWit.cursor_pool = some { free := [], next_id := 0 }
    ∧ ReadyDeliverySpec sWit { free := [], next_id := 8 } false [⟨1, 2, 3, 4⟩] :=
  ⟨rfl, rfl, surface_handle_ready_delivery sWit _ _ false [⟨1, 2, 3, 4⟩] rfl rfl⟩

/-- The session reached by create → start(false) → cursor_enter → init_done:
negotiation has completed and a capture with a cursor buffer is in flight. -/
def inFlightCursorState : Option (ExtScreencopy × List PCall) :=
  match (ext_screencopy_create false true true true true).1 with
  | none => none
  | some s => sc_run s [SCAction.start false, SCAction.cursor_enter, SCAction.init_done]

/-- C7 counterexample: in the reachable state where a capture with a cursor
buffer is in flight, destroy releases the outstanding output buffer but not
the outstanding cursor buffer, so a borrowed buffer remains unreturned. -/
theorem ext_screencopy_destroy_cursor_counterexample :
    ∃ s tr cb, inFlightCursorState = some (s, tr)
      ∧ s.cursor_buffer = some cb
      ∧ PCall.pool_release WvBufferDomain.cursor cb.id ∉ ext_screencopy_destroy s
      ∧ PCall.pool_release WvBufferDomain.output 0 ∈ ext_screencopy_destroy s := by
  refine ⟨_, _, _, rfl, rfl, by decide, by decide⟩

/-- Destroy behaviour: the surface handle is destroyed when present, an
outstanding output buffer is released back to the output pool, the session
memory is freed exactly once — and an outstanding cursor buffer is never
released by destroy. -/
def DestroySpec (s : ExtScreencopy) : Prop :=
  (∀ h, s.surface = some h → PCall.surface_destroy h ∈ ext_screencopy_destroy s)
  ∧ (∀ b, s.buffer = some b →
      PCall.pool_release WvBufferDomain.output b.id ∈ ext_screencopy_destroy s)
  ∧ (ext_screencopy_destroy s).count PCall.free_session = 1
  ∧ ∀ i, PCall.pool_release WvBufferDomain.cursor i ∉ ext_screencopy_destroy s

/-- C7 (amended): for every session state, destroy releases the surface
handle (when present) and any outstanding output buffer back to the output
pool immediately, without waiting for in-flight resolution, and frees the
session exactly once; an outstanding cursor buffer is not released. -/
theorem ext_screencopy_destroy_releases (s : ExtScreencopy) : DestroySpec s := by
  unfold DestroySpec ext_screencopy_destroy
  rcases hs : s.surface with _ | h0 <;> rcases hb : s.buffer with _ | b <;>
    simp [List.count_cons, List.count_nil]

/-- C7 witness: the destroy theorem applied at a concrete session with a
surface handle and an output buffer outstanding. -/
theorem ext_screencopy_destroy_releases_witness :
    PCall.surface_destroy 0 ∈ ext_screencopy_destroy sWit
    ∧ PCall.pool_release WvBufferDomain.output bufWit.id ∈ ext_screencopy_destroy sWit :=
  ⟨(ext_screencopy_destroy_releases sWit).1 0 rfl,
    (ext_screencopy_destroy_releases sWit).2.1 bufWit rfl⟩
